import Mathlib

/-!
A verification development for `size_diff.py`, a tool that measures
lines-of-code and token density over a tree of Python files and can diff two
such measurements.

The Python functions are shallowly embedded as Lean functions:

* Python strings are Lean `String`s; the Python string methods
  `str.startswith`, `str.strip` and `str.split` are modelled on the
  underlying character lists (`pyStartsWith`, `pyStrip`, `splitOnChar`).
* A `tokenize.TokenInfo` becomes the structure `TokenInfo` carrying the
  fields the program reads: token type, token text, start/end rows of the
  token span, and the physical source line of the token start.
* `gen_stats` walks the file system in Python; here it takes the list of
  `(relative path, token list)` pairs that `rglob` + `tokenize` would
  produce and performs the same per-file computation.
* Python `int` is `Int`; `float` token density is modelled as `ℚ`
  (exact real division, as the spec describes `density = token_count /
  line_count`).
* The fatal `assert` in `main`'s single-snapshot mode becomes an
  `Except String Unit` result (`Except.error` carrying the assert message).
-/

namespace SizeDiff

/-- Token types produced by the tokenizer that the program distinguishes.
`OP`, `NAME`, `NUMBER`, `STRING` form the whitelist; the remaining
constructors stand for the token types the program filters out. -/
inductive TokType where
  | OP
  | NAME
  | NUMBER
  | STRING
  | COMMENT
  | NEWLINE
  | NL
  | INDENT
  | DEDENT
  | ENDMARKER
  deriving DecidableEq, Repr

/-- Model of `tokenize.TokenInfo`: the fields read by `size_diff.py`.
`startLine`/`endLine` are `tok.start[0]` and `tok.end[0]` (1-based physical
rows), `line` is the full source line containing the token start. -/
structure TokenInfo where
  type : TokType
  string : String
  startLine : Nat
  endLine : Nat
  line : String
  deriving DecidableEq, Repr

/-- `TOKEN_WHITELIST = [token.OP, token.NAME, token.NUMBER, token.STRING]`. -/
def TOKEN_WHITELIST : List TokType :=
  [TokType.OP, TokType.NAME, TokType.NUMBER, TokType.STRING]

/-- Model of Python `s.startswith(p)`: `p`'s characters are a prefix of
`s`'s characters. -/
def pyStartsWith (s p : String) : Bool :=
  p.data.isPrefixOf s.data

/-- Model of Python `s.strip()`: drop whitespace from both ends. -/
def pyStrip (s : String) : String :=
  ⟨((s.data.dropWhile Char.isWhitespace).reverse.dropWhile
      Char.isWhitespace).reverse⟩

/-- The double-quote triple delimiter tested by `is_docstring`. -/
def tripleQuote : String := "\"\"\""

/-- A single-quote character (codepoint 39). -/
def squoteChar : Char := Char.ofNat 39

/-- The single-quote triple delimiter, which `is_docstring` never tests. -/
def tripleSingleQuote : String := ⟨[squoteChar, squoteChar, squoteChar]⟩

/-- `is_docstring(tok)`: the token is a string literal, its text starts with
the double-quote triple delimiter, and the stripped source line of its start
also starts with that delimiter. -/
def is_docstring (tok : TokenInfo) : Bool :=
  tok.type == TokType.STRING && pyStartsWith tok.string tripleQuote &&
    pyStartsWith (pyStrip tok.line) tripleQuote

/-- The token filter of `gen_stats`: `tok.type in TOKEN_WHITELIST`. -/
def whitelisted (tok : TokenInfo) : Bool :=
  TOKEN_WHITELIST.contains tok.type

/-- The token list retained by `gen_stats` for one file:
`[tok for tok in tokens if tok.type in TOKEN_WHITELIST and not is_docstring(tok)]`. -/
def retained (toks : List TokenInfo) : List TokenInfo :=
  toks.filter (fun t => whitelisted t && !is_docstring t)

/-- `covered_lines = {ln for tok in tokens for ln in range(tok.start[0], tok.end[0] + 1)}`. -/
def coveredLines (toks : List TokenInfo) : Finset Nat :=
  toks.foldr (fun t s => Finset.Icc t.startLine t.endLine ∪ s) ∅

/-- A per-file stats row `[relpath, line_count, density]` of `gen_stats`. -/
structure FileStat where
  path : String
  line_count : Int
  density : ℚ
  deriving DecidableEq, Repr, Inhabited

/-- The body of `gen_stats`'s loop for one file: the stats row appended for
the file, or `none` when `line_count == 0` and the file is skipped. -/
def fileStat? (p : String) (toks : List TokenInfo) : Option FileStat :=
  let tokens := retained toks
  let token_count := tokens.length
  let line_count := (coveredLines tokens).card
  if 0 < line_count then
    some ⟨p, (line_count : Int), (token_count : ℚ) / (line_count : ℚ)⟩
  else none

/-- `gen_stats`, applied to the `(relative path, token list)` pairs that the
`rglob` traversal and tokenization would yield. -/
def gen_stats (files : List (String × List TokenInfo)) : List FileStat :=
  files.filterMap (fun pf => fileStat? pf.1 pf.2)

/-- The default row `[fname, 0, 0.0]` used by `gen_diff` for a missing side. -/
def defaultStat (f : String) : FileStat := ⟨f, 0, 0⟩

/-- Model of `old_map.get(fname, [fname, 0, 0.0])` where
`old_map = {row[0]: row for row in old_stats}`: the last row with the given
path wins (as in a Python dict comprehension), defaulting when absent. -/
def lookupStat (stats : List FileStat) (f : String) : FileStat :=
  (stats.reverse.find? (fun r => r.path == f)).getD (defaultStat f)

/-- A diff row `[fname, new_line_count, line_delta, new_density, density_delta]`. -/
structure DiffRow where
  path : String
  new_line_count : Int
  line_delta : Int
  new_density : ℚ
  density_delta : ℚ
  deriving DecidableEq, Repr

/-- The row `gen_diff` computes for one file name before filtering. -/
def diffRow (old_stats new_stats : List FileStat) (f : String) : DiffRow :=
  let old_row := lookupStat old_stats f
  let new_row := lookupStat new_stats f
  ⟨f, new_row.line_count, new_row.line_count - old_row.line_count,
    new_row.density, new_row.density - old_row.density⟩

/-- The emission condition of `gen_diff`:
`line_delta != 0 or density_delta != 0`. -/
def keepRow (r : DiffRow) : Bool :=
  r.line_delta != 0 || r.density_delta != 0

/-- `sorted(set(old_map) | set(new_map))`: the union of the path sets of the
two sides, deduplicated and sorted lexicographically. -/
def allFiles (old_stats new_stats : List FileStat) : List String :=
  ((old_stats.map FileStat.path ++ new_stats.map FileStat.path).dedup).mergeSort
    (fun a b => a ≤ b)

/-- `gen_diff(old_stats, new_stats)`: one candidate row per file name in the
sorted union, keeping only rows with a non-zero line or density delta. -/
def gen_diff (old_stats new_stats : List FileStat) : List DiffRow :=
  ((allFiles old_stats new_stats).map (diffRow old_stats new_stats)).filter
    keepRow

/-- Diff mode grand total: `total_delta = sum(r[2] for r in table)`. -/
def total_delta (table : List DiffRow) : Int :=
  (table.map DiffRow.line_delta).sum

/-- Single-snapshot grand total: `total_lines = sum(r[1] for r in table)`. -/
def total_lines (table : List FileStat) : Int :=
  (table.map FileStat.line_count).sum

/-- The slash character used to split and rejoin paths. -/
def slashChar : Char := '/'

/-- Model of Python `s.split(sep)` for a one-character separator, on
character lists; `[] → [[]]` matches `"".split(sep) == [""]`. -/
def splitOnChar (sep : Char) : List Char → List (List Char)
  | [] => [[]]
  | c :: cs =>
    match splitOnChar sep cs with
    | [] => if c = sep then [[], [c]] else [[c]]
    | w :: ws => if c = sep then [] :: w :: ws else (c :: w) :: ws

/-- The directory-grouping key of `main`:
`"/".join(r[0].split("/")[:2])`. -/
def group_key (p : String) : String :=
  ⟨List.intercalate [slashChar] ((splitOnChar slashChar p.data).take 2)⟩

/-- The distinct group keys appearing in a stats table, the keys over which
`itertools.groupby` produces one group each after sorting. -/
def groupKeys (table : List FileStat) : List String :=
  (table.map (fun r => group_key r.path)).dedup

/-- The subtotal `sum(item[1] for item in group)` printed for one directory
group: the line counts of the rows whose key equals `k`. -/
def dirSubtotal (table : List FileStat) (k : String) : Int :=
  ((table.filter (fun r => group_key r.path == k)).map FileStat.line_count).sum

/-- The list of per-group subtotals printed by `main`, one per distinct key. -/
def dirSubtotals (table : List FileStat) : List Int :=
  (groupKeys table).map (dirSubtotal table)

/-- The assert message `f"OVER {max_count} LINES"`. -/
def threshold_message (max_count : Int) : String :=
  "OVER " ++ toString max_count ++ " LINES"

/-- The outcome of `main`'s single-snapshot mode, given a stats table and the
parsed `MAX_LINE_COUNT` value: an empty table returns early (success);
otherwise the assert `max_count == -1 or total_lines <= max_count` either
passes (success) or fails with the message naming the limit. -/
def single_mode_result (table : List FileStat) (max_count : Int) :
    Except String Unit :=
  if table.isEmpty then Except.ok ()
  else if max_count == -1 || total_lines table ≤ max_count then Except.ok ()
  else Except.error (threshold_message max_count)

/-! Concrete sample data used by the witness theorems. -/

/-- A docstring token: a `"""`-string on a line whose stripped text starts
with `"""`. -/
def sampleDocTok : TokenInfo :=
  ⟨TokType.STRING, "\"\"\"doc\"\"\"", 2, 2, "  \"\"\"doc\"\"\""⟩

/-- A `'''`-delimited standalone documentation string token. -/
def sampleSquoteTok : TokenInfo :=
  ⟨TokType.STRING, tripleSingleQuote ++ "doc" ++ tripleSingleQuote, 3, 4,
    tripleSingleQuote ++ "doc"⟩

/-- A one-token file body. -/
def sampleToks : List TokenInfo :=
  [⟨TokType.NAME, "x", 1, 1, "x = 1"⟩]

/-- A scan input with one non-empty file. -/
def sampleFiles : List (String × List TokenInfo) :=
  [("a.py", sampleToks)]

/-- A scan input with a non-empty file and a token-free file. -/
def sampleFiles2 : List (String × List TokenInfo) :=
  [("a.py", sampleToks), ("b.py", [])]

/-- An old-snapshot stats table. -/
def sampleOld : List FileStat :=
  [⟨"a.py", 5, 2⟩, ⟨"b.py", 3, 1⟩]

/-- A new-snapshot stats table: `b.py` removed, `c.py` added. -/
def sampleNew : List FileStat :=
  [⟨"a.py", 7, 2⟩, ⟨"c.py", 4, 2⟩]

/-- A single-snapshot table with total 120. -/
def sampleT120 : List FileStat := [⟨"a/b/c.py", 120, 1⟩]

/-- A single-snapshot table with total 80. -/
def sampleT80 : List FileStat := [⟨"a/b/c.py", 50, 1⟩, ⟨"a/d/e.py", 30, 1⟩]

/-! Helper lemmas. -/

theorem lookupStat_nil (f : String) : lookupStat [] f = defaultStat f := rfl

theorem lookupStat_not_mem {stats : List FileStat} {f : String}
    (h : f ∉ stats.map FileStat.path) : lookupStat stats f = defaultStat f := by
  have hnone : stats.reverse.find? (fun r => r.path == f) = none := by
    apply List.find?_eq_none.mpr
    intro x hx
    simp only [beq_iff_eq]
    intro heq
    exact h (List.mem_map.mpr ⟨x, List.mem_reverse.mp hx, heq⟩)
  unfold lookupStat
  rw [hnone]
  rfl

theorem lookupStat_cons {r : FileStat} {rest : List FileStat}
    (h : r.path ∉ rest.map FileStat.path) (f : String) :
    lookupStat (r :: rest) f = if f = r.path then r else lookupStat rest f := by
  unfold lookupStat
  rw [List.reverse_cons, List.find?_append]
  by_cases hf : f = r.path
  · have hnone : rest.reverse.find? (fun x => x.path == f) = none := by
      apply List.find?_eq_none.mpr
      intro x hx
      simp only [beq_iff_eq]
      intro heq
      exact h (List.mem_map.mpr ⟨x, List.mem_reverse.mp hx, heq.trans hf⟩)
    have hpr : (r.path == f) = true := by simp [hf]
    rw [hnone, if_pos hf]
    simp [hpr]
  · have hpr : (r.path == f) = false := by
      simp only [beq_eq_false_iff_ne, ne_eq]
      exact fun hc => hf hc.symm
    rw [if_neg hf]
    simp [hpr]

theorem keepRow_false_iff {r : DiffRow} :
    keepRow r = false ↔ r.line_delta = 0 ∧ r.density_delta = 0 := by
  simp [keepRow]

theorem keepRow_true_iff {r : DiffRow} :
    keepRow r = true ↔ r.line_delta ≠ 0 ∨ r.density_delta ≠ 0 := by
  simp [keepRow]

theorem allFiles_perm (old_stats new_stats : List FileStat) :
    List.Perm (allFiles old_stats new_stats)
      ((old_stats.map FileStat.path ++ new_stats.map FileStat.path).dedup) :=
  List.mergeSort_perm _ _

theorem allFiles_nodup (old_stats new_stats : List FileStat) :
    (allFiles old_stats new_stats).Nodup :=
  (allFiles_perm old_stats new_stats).nodup_iff.mpr (List.nodup_dedup _)

theorem mem_allFiles {old_stats new_stats : List FileStat} {f : String} :
    f ∈ allFiles old_stats new_stats ↔
      f ∈ old_stats.map FileStat.path ++ new_stats.map FileStat.path := by
  rw [(allFiles_perm old_stats new_stats).mem_iff, List.mem_dedup]

theorem sum_map_sub (S : List String) (g h : String → Int) :
    (S.map (fun f => g f - h f)).sum = (S.map g).sum - (S.map h).sum := by
  induction S with
  | nil => rfl
  | cons a S ih =>
    simp only [List.map_cons, List.sum_cons, ih]
    ring

theorem sum_map_add (S : List String) (g h : String → Int) :
    (S.map (fun f => g f + h f)).sum = (S.map g).sum + (S.map h).sum := by
  induction S with
  | nil => rfl
  | cons a S ih =>
    simp only [List.map_cons, List.sum_cons, ih]
    ring

theorem sum_map_ite {S : List String} (hS : S.Nodup) {a : String} (ha : a ∈ S)
    (x : Int) (g : String → Int) :
    (S.map (fun f => if f = a then x else g f)).sum = x + (S.map g).sum - g a := by
  induction S with
  | nil => cases ha
  | cons b S ih =>
    rcases List.nodup_cons.mp hS with ⟨hb, hS'⟩
    rcases List.mem_cons.mp ha with hab | ha'
    · subst hab
      have hrest : ∀ f ∈ S, (if f = a then x else g f) = g f := by
        intro f hf
        rw [if_neg]
        intro hc
        subst hc
        exact hb hf
      rw [List.map_cons, List.sum_cons, if_pos rfl, List.map_congr_left hrest,
        List.map_cons, List.sum_cons]
      ring
    · have hba : b ≠ a := by
        intro hc
        subst hc
        exact hb ha'
      rw [List.map_cons, List.sum_cons, if_neg hba, ih hS' ha', List.map_cons,
        List.sum_cons]
      ring

theorem sum_map_indicator {S : List String} (hS : S.Nodup) {a : String}
    (ha : a ∈ S) (x : Int) :
    (S.map (fun k => if a == k then x else 0)).sum = x := by
  have h := sum_map_ite hS ha x (fun _ => (0 : Int))
  have hzero : (S.map (fun _ => (0 : Int))).sum = 0 := by
    apply List.sum_eq_zero
    intro y hy
    rcases List.mem_map.mp hy with ⟨_, _, rfl⟩
    rfl
  have hco : ∀ k ∈ S, (if a == k then x else (0 : Int)) = if k = a then x else 0 := by
    intro k _
    by_cases hk : k = a
    · subst hk
      simp
    · rw [if_neg hk, if_neg]
      simp only [beq_iff_eq]
      exact fun hc => hk hc.symm
  rw [List.map_congr_left hco, h, hzero]
  ring

theorem sum_lookup (S : List String) (hS : S.Nodup) :
    ∀ stats : List FileStat, (stats.map FileStat.path).Nodup →
      (∀ r ∈ stats, r.path ∈ S) →
      (S.map (fun f => (lookupStat stats f).line_count)).sum
        = (stats.map FileStat.line_count).sum := by
  intro stats
  induction stats with
  | nil =>
    intro _ _
    simp only [List.map_nil, List.sum_nil]
    apply List.sum_eq_zero
    intro y hy
    rcases List.mem_map.mp hy with ⟨_, _, rfl⟩
    rfl
  | cons r rest ih =>
    intro hu hsub
    rw [List.map_cons] at hu
    have hr : r.path ∉ rest.map FileStat.path := (List.nodup_cons.mp hu).1
    have hrest : (rest.map FileStat.path).Nodup := (List.nodup_cons.mp hu).2
    have hco : ∀ f ∈ S, (lookupStat (r :: rest) f).line_count
        = if f = r.path then r.line_count else (lookupStat rest f).line_count := by
      intro f _
      rw [lookupStat_cons hr]
      by_cases hf : f = r.path
      · rw [if_pos hf, if_pos hf]
      · rw [if_neg hf, if_neg hf]
    rw [List.map_congr_left hco,
      sum_map_ite hS (hsub r (List.mem_cons_self r rest)) r.line_count,
      lookupStat_not_mem hr,
      ih hrest (fun x hx => hsub x (List.mem_cons_of_mem r hx)),
      List.map_cons, List.sum_cons]
    show r.line_count + _ - (0 : Int) = _
    ring

theorem sum_filter_line_delta {l : List DiffRow}
    (h : ∀ r ∈ l, keepRow r = false → r.line_delta = 0) :
    ((l.filter keepRow).map DiffRow.line_delta).sum
      = (l.map DiffRow.line_delta).sum := by
  induction l with
  | nil => rfl
  | cons r l ih =>
    have ih' := ih (fun x hx hk => h x (List.mem_cons_of_mem r hx) hk)
    by_cases hk : keepRow r
    · rw [List.filter_cons_of_pos hk, List.map_cons, List.sum_cons, ih',
        List.map_cons, List.sum_cons]
    · have h0 : r.line_delta = 0 :=
        h r (List.mem_cons_self r l) (Bool.not_eq_true _ ▸ (by simpa using hk))
      rw [List.filter_cons_of_neg (by simpa using hk), ih', List.map_cons,
        List.sum_cons, h0, zero_add]

theorem sum_partition (keys : List String) (hk : keys.Nodup) :
    ∀ table : List FileStat, (∀ r ∈ table, group_key r.path ∈ keys) →
      (keys.map (fun k =>
        ((table.filter (fun r => group_key r.path == k)).map
          FileStat.line_count).sum)).sum
        = (table.map FileStat.line_count).sum := by
  intro table
  induction table with
  | nil =>
    intro _
    simp only [List.filter_nil, List.map_nil, List.sum_nil]
    apply List.sum_eq_zero
    intro y hy
    rcases List.mem_map.mp hy with ⟨_, _, rfl⟩
    rfl
  | cons r rest ih =>
    intro hmem
    have hmem' : ∀ x ∈ rest, group_key x.path ∈ keys :=
      fun x hx => hmem x (List.mem_cons_of_mem r hx)
    have hsplit : ∀ k ∈ keys,
        (((r :: rest).filter (fun s => group_key s.path == k)).map
          FileStat.line_count).sum
          = (if group_key r.path == k then r.line_count else 0)
            + ((rest.filter (fun s => group_key s.path == k)).map
              FileStat.line_count).sum := by
      intro k _
      by_cases hcond : (group_key r.path == k) = true
      · simp [List.filter_cons, hcond]
      · simp [List.filter_cons, hcond]
    rw [List.map_congr_left hsplit, sum_map_add,
      sum_map_indicator hk (hmem r (List.mem_cons_self r rest)) r.line_count,
      ih hmem', List.map_cons, List.sum_cons]

theorem countP_eq_single {S : List String} (f : String) (q : String → Bool)
    (hS : S.Nodup) (hf : f ∈ S) :
    S.countP (fun g => (g == f) && q g) = if q f then 1 else 0 := by
  induction S with
  | nil => cases hf
  | cons a S ih =>
    rcases List.nodup_cons.mp hS with ⟨ha, hS'⟩
    rw [List.countP_cons]
    rcases List.mem_cons.mp hf with hfa | hf'
    · subst hfa
      have hnot : S.countP (fun g => (g == f) && q g) = 0 := by
        apply List.countP_eq_zero.mpr
        intro g hg
        simp only [Bool.and_eq_true, beq_iff_eq]
        rintro ⟨rfl, -⟩
        exact ha hg
      rw [hnot, zero_add]
      by_cases hq : q f = true
      · rw [if_pos (by simp [hq]), if_pos hq]
      · rw [if_neg (by simp [hq]), if_neg hq]
    · have hcond : ¬((a == f) && q a) = true := by
        simp only [Bool.and_eq_true, beq_iff_eq]
        rintro ⟨rfl, -⟩
        exact ha hf'
      rw [ih hS' hf', if_neg hcond, add_zero]

theorem line_count_pos_of_mem_gen_stats
    {files : List (String × List TokenInfo)} {r : FileStat}
    (hr : r ∈ gen_stats files) : 0 < r.line_count := by
  rcases List.mem_filterMap.mp hr with ⟨pf, -, hpf⟩
  simp only [fileStat?] at hpf
  split at hpf
  · rename 0 < (coveredLines (retained pf.2)).card => hlc
    cases hpf
    simpa using hlc
  · cases hpf

theorem pyStartsWith_single_not_double {s : String}
    (h : pyStartsWith s tripleSingleQuote = true) :
    pyStartsWith s tripleQuote = false := by
  unfold pyStartsWith at *
  rw [List.isPrefixOf_iff_prefix] at h
  by_contra hc
  rw [Bool.not_eq_false, List.isPrefixOf_iff_prefix] at hc
  have h1 := List.prefix_iff_eq_take.mp h
  have h2 := List.prefix_iff_eq_take.mp hc
  have hlen : tripleSingleQuote.data.length = tripleQuote.data.length := by
    decide
  rw [hlen] at h1
  have hdata : tripleSingleQuote.data = tripleQuote.data := h1.trans h2.symm
  exact absurd hdata (by decide)

theorem coveredLines_mono {t : TokenInfo} :
    ∀ {ts : List TokenInfo}, t ∈ ts →
      Finset.Icc t.startLine t.endLine ⊆ coveredLines ts := by
  intro ts
  induction ts with
  | nil => intro h; cases h
  | cons a ts ih =>
    intro h x hx
    show x ∈ Finset.Icc a.startLine a.endLine ∪ coveredLines ts
    rcases List.mem_cons.mp h with hta | h'
    · exact Finset.mem_union_left _ (hta ▸ hx)
    · exact Finset.mem_union_right _ (ih h' hx)

/-! The claims. -/

/-- C2: for every token, `is_docstring` returns true if and only if the
token's type is string literal, its text begins with the `"""` delimiter, and
the source line containing the token's start, stripped of surrounding
whitespace, also begins with that delimiter; such tokens are excluded from
the retained tokens that `gen_stats` counts. -/
theorem is_docstring_iff :
    (∀ tok : TokenInfo, is_docstring tok = true ↔
      (tok.type = TokType.STRING ∧ pyStartsWith tok.string tripleQuote = true ∧
        pyStartsWith (pyStrip tok.line) tripleQuote = true)) ∧
    (∀ (toks : List TokenInfo) (tok : TokenInfo), tok ∈ toks →
      is_docstring tok = true → tok ∉ retained toks) := by
  constructor
  · intro tok
    simp [is_docstring, Bool.and_eq_true, beq_iff_eq, and_assoc]
  · intro toks tok _ hdoc hmem
    have hkeep := (List.mem_filter.mp hmem).2
    rw [hdoc] at hkeep
    simp at hkeep

/-- C2 witness: a concrete `"""`-token on an indented line is classified as a
docstring and filtered out. -/
theorem is_docstring_iff_witness :
    is_docstring sampleDocTok = true ∧ sampleDocTok ∉ retained [sampleDocTok] := by
  refine ⟨(is_docstring_iff.1 sampleDocTok).mpr ⟨rfl, by decide, by decide⟩, ?_⟩
  exact is_docstring_iff.2 [sampleDocTok] sampleDocTok (by decide)
    ((is_docstring_iff.1 sampleDocTok).mpr ⟨rfl, by decide, by decide⟩)

/-- C5: in `gen_diff`, a path present only in `new_stats` with non-zero
line count or density yields the row
`(f, new.line_count, new.line_count, new.density, new.density)`, and a path
present only in `old_stats` with non-zero line count or density yields the
row `(f, 0, -old.line_count, 0, -old.density)`: the missing side defaults to
`(f, 0, 0.0)`. -/
theorem gen_diff_added_removed :
    (∀ (old_stats new_stats : List FileStat) (f : String),
      f ∉ old_stats.map FileStat.path → f ∈ new_stats.map FileStat.path →
      ((lookupStat new_stats f).line_count ≠ 0 ∨
        (lookupStat new_stats f).density ≠ 0) →
      (⟨f, (lookupStat new_stats f).line_count,
        (lookupStat new_stats f).line_count,
        (lookupStat new_stats f).density,
        (lookupStat new_stats f).density⟩ : DiffRow)
        ∈ gen_diff old_stats new_stats) ∧
    (∀ (old_stats new_stats : List FileStat) (f : String),
      f ∈ old_stats.map FileStat.path → f ∉ new_stats.map FileStat.path →
      ((lookupStat old_stats f).line_count ≠ 0 ∨
        (lookupStat old_stats f).density ≠ 0) →
      (⟨f, 0, -(lookupStat old_stats f).line_count, 0,
        -(lookupStat old_stats f).density⟩ : DiffRow)
        ∈ gen_diff old_stats new_stats) := by
  constructor
  · intro old_stats new_stats f hfo hfn hnz
    have hrow : diffRow old_stats new_stats f
        = ⟨f, (lookupStat new_stats f).line_count,
            (lookupStat new_stats f).line_count,
            (lookupStat new_stats f).density,
            (lookupStat new_stats f).density⟩ := by
      unfold diffRow
      rw [lookupStat_not_mem hfo]
      show (⟨f, _, _ - (defaultStat f).line_count, _,
        _ - (defaultStat f).density⟩ : DiffRow) = _
      simp [defaultStat]
    apply List.mem_filter.mpr
    constructor
    · rw [← hrow]
      exact List.mem_map_of_mem _
        (mem_allFiles.mpr (List.mem_append.mpr (Or.inr hfn)))
    · apply keepRow_true_iff.mpr
      simpa using hnz
  · intro old_stats new_stats f hfo hfn hnz
    have hrow : diffRow old_stats new_stats f
        = ⟨f, 0, -(lookupStat old_stats f).line_count, 0,
            -(lookupStat old_stats f).density⟩ := by
      unfold diffRow
      rw [lookupStat_not_mem hfn]
      show (⟨f, (defaultStat f).line_count,
        (defaultStat f).line_count - _, (defaultStat f).density,
        (defaultStat f).density - _⟩ : DiffRow) = _
      simp [defaultStat]
    apply List.mem_filter.mpr
    constructor
    · rw [← hrow]
      exact List.mem_map_of_mem _
        (mem_allFiles.mpr (List.mem_append.mpr (Or.inl hfo)))
    · apply keepRow_true_iff.mpr
      simpa using hnz

/-- C5 witness: `c.py` only in the new snapshot rises from zero; `b.py` only
in the old snapshot drops to zero. -/
theorem gen_diff_added_removed_witness :
    (⟨"c.py", (lookupStat sampleNew "c.py").line_count,
      (lookupStat sampleNew "c.py").line_count,
      (lookupStat sampleNew "c.py").density,
      (lookupStat sampleNew "c.py").density⟩ : DiffRow)
      ∈ gen_diff sampleOld sampleNew ∧
    (⟨"b.py", 0, -(lookupStat sampleOld "b.py").line_count, 0,
      -(lookupStat sampleOld "b.py").density⟩ : DiffRow)
      ∈ gen_diff sampleOld sampleNew :=
  ⟨gen_diff_added_removed.1 sampleOld sampleNew "c.py" (by decide) (by decide)
      (Or.inl (by decide)),
    gen_diff_added_removed.2 sampleOld sampleNew "b.py" (by decide) (by decide)
      (Or.inl (by decide))⟩

/-- C6: diffing a stat collection with unique paths against itself yields the
empty sequence. -/
theorem gen_diff_self (A : List FileStat)
    (_h : (A.map FileStat.path).Nodup) : gen_diff A A = [] := by
  unfold gen_diff
  apply List.filter_eq_nil_iff.mpr
  intro r hr
  rcases List.mem_map.mp hr with ⟨f, -, rfl⟩
  simp [keepRow, diffRow]

/-- C6 witness: the diff of a concrete snapshot against itself is empty. -/
theorem gen_diff_self_witness : gen_diff sampleOld sampleOld = [] :=
  gen_diff_self sampleOld (by decide)

/-- C9: a string-literal token whose text begins with the `'''` delimiter is
never classified as a docstring, so it is retained by the filter of
`gen_stats` — it counts towards `token_count` and its line span is contained
in the covered-line set. -/
theorem triple_single_quote_counted :
    ∀ tok : TokenInfo, tok.type = TokType.STRING →
      pyStartsWith tok.string tripleSingleQuote = true →
      is_docstring tok = false ∧
      ∀ toks : List TokenInfo, tok ∈ toks →
        tok ∈ retained toks ∧ 0 < (retained toks).length ∧
        Finset.Icc tok.startLine tok.endLine ⊆ coveredLines (retained toks) := by
  intro tok hty hsq
  have hds : is_docstring tok = false := by
    unfold is_docstring
    rw [pyStartsWith_single_not_double hsq]
    simp
  refine ⟨hds, ?_⟩
  intro toks hmem
  have hret : tok ∈ retained toks := by
    apply List.mem_filter.mpr
    refine ⟨hmem, ?_⟩
    simp [whitelisted, TOKEN_WHITELIST, hty, hds]
  exact ⟨hret, List.length_pos.mpr (List.ne_nil_of_mem hret),
    coveredLines_mono hret⟩

/-- C9 witness: a concrete `'''`-delimited standalone string is not a
docstring, is retained, and covers its span. -/
theorem triple_single_quote_counted_witness :
    is_docstring sampleSquoteTok = false ∧
    (sampleSquoteTok ∈ retained [sampleSquoteTok] ∧
      0 < (retained [sampleSquoteTok]).length ∧
      Finset.Icc sampleSquoteTok.startLine sampleSquoteTok.endLine
        ⊆ coveredLines (retained [sampleSquoteTok])) :=
  ⟨(triple_single_quote_counted sampleSquoteTok rfl (by decide)).1,
    (triple_single_quote_counted sampleSquoteTok rfl (by decide)).2
      [sampleSquoteTok] (by decide)⟩

/-- C1: for stat collections with unique paths, the grand total that diff
mode prints — the sum of `line_delta` over the filtered rows returned by
`gen_diff` — equals the total line count of the new snapshot minus that of
the old snapshot, even though rows with both deltas zero are omitted. -/
theorem gen_diff_total_delta (old_stats new_stats : List FileStat)
    (ho : (old_stats.map FileStat.path).Nodup)
    (hn : (new_stats.map FileStat.path).Nodup) :
    total_delta (gen_diff old_stats new_stats)
      = total_lines new_stats - total_lines old_stats := by
  unfold total_delta gen_diff
  rw [sum_filter_line_delta
    (fun r _ hk => (keepRow_false_iff.mp hk).1), List.map_map]
  have hdelta : ∀ f ∈ allFiles old_stats new_stats,
      (DiffRow.line_delta ∘ diffRow old_stats new_stats) f
        = (fun f => (lookupStat new_stats f).line_count
            - (lookupStat old_stats f).line_count) f :=
    fun f _ => rfl
  rw [List.map_congr_left hdelta,
    ((allFiles_perm old_stats new_stats).map _).sum_eq, sum_map_sub]
  have hsubn : ∀ r ∈ new_stats, r.path ∈
      (old_stats.map FileStat.path ++ new_stats.map FileStat.path).dedup :=
    fun r hr => List.mem_dedup.mpr
      (List.mem_append.mpr (Or.inr (List.mem_map_of_mem _ hr)))
  have hsubo : ∀ r ∈ old_stats, r.path ∈
      (old_stats.map FileStat.path ++ new_stats.map FileStat.path).dedup :=
    fun r hr => List.mem_dedup.mpr
      (List.mem_append.mpr (Or.inl (List.mem_map_of_mem _ hr)))
  rw [sum_lookup _ (List.nodup_dedup _) new_stats hn hsubn,
    sum_lookup _ (List.nodup_dedup _) old_stats ho hsubo]
  rfl

/-- C1 witness: the spec's end-to-end example, extended with an added file —
the printed diff total equals new total minus old total. -/
theorem gen_diff_total_delta_witness :
    total_delta (gen_diff sampleOld sampleNew)
      = total_lines sampleNew - total_lines sampleOld :=
  gen_diff_total_delta sampleOld sampleNew (by decide) (by decide)

/-- C4: for stat collections with unique paths, a path present in either
collection appears in the output of `gen_diff` exactly once if its line or
density delta is non-zero, and zero times if both deltas are zero. -/
theorem gen_diff_path_count (old_stats new_stats : List FileStat)
    (_ho : (old_stats.map FileStat.path).Nodup)
    (_hn : (new_stats.map FileStat.path).Nodup) (f : String)
    (hf : f ∈ old_stats.map FileStat.path ++ new_stats.map FileStat.path) :
    (gen_diff old_stats new_stats).countP (fun r => r.path == f)
      = if (diffRow old_stats new_stats f).line_delta ≠ 0 ∨
            (diffRow old_stats new_stats f).density_delta ≠ 0
        then 1 else 0 := by
  unfold gen_diff
  rw [List.countP_filter, List.countP_map]
  have hfun : ((fun r => r.path == f && keepRow r) ∘
        diffRow old_stats new_stats)
      = fun g => (g == f) && keepRow (diffRow old_stats new_stats g) := by
    funext g
    rfl
  rw [hfun, countP_eq_single f _ (allFiles_nodup old_stats new_stats)
    (mem_allFiles.mpr hf)]
  by_cases hk : keepRow (diffRow old_stats new_stats f) = true
  · rw [if_pos hk, if_pos (keepRow_true_iff.mp hk)]
  · rw [if_neg hk]
    have := keepRow_false_iff.mp (by simpa using hk)
    rw [if_neg]
    simp [this.1, this.2]

/-- C4 witness: in the sample snapshots, `b.py` (changed) appears exactly
once. -/
theorem gen_diff_path_count_witness :
    (gen_diff sampleOld sampleNew).countP (fun r => r.path == "b.py")
      = if (diffRow sampleOld sampleNew "b.py").line_delta ≠ 0 ∨
            (diffRow sampleOld sampleNew "b.py").density_delta ≠ 0
        then 1 else 0 :=
  gen_diff_path_count sampleOld sampleNew (by decide) (by decide) "b.py"
    (by decide)

/-- C3: in single-snapshot mode with a non-empty table, threshold 100 and
total 120 fail with the error naming the limit, threshold 100 and total 80
succeed, and the disabled sentinel -1 succeeds for every table; the message
text names the configured limit. -/
theorem threshold_enforcement :
    (∀ table : List FileStat, table ≠ [] → total_lines table = 120 →
      single_mode_result table 100 = Except.error (threshold_message 100)) ∧
    (∀ table : List FileStat, table ≠ [] → total_lines table = 80 →
      single_mode_result table 100 = Except.ok ()) ∧
    (∀ table : List FileStat, single_mode_result table (-1) = Except.ok ()) ∧
    threshold_message 100 = "OVER 100 LINES" := by
  refine ⟨?_, ?_, ?_, by decide⟩
  · intro table hne htot
    unfold single_mode_result
    rw [if_neg (by simpa [List.isEmpty_iff] using hne), htot, if_neg (by decide)]
  · intro table hne htot
    unfold single_mode_result
    rw [if_neg (by simpa [List.isEmpty_iff] using hne), htot, if_pos (by decide)]
  · intro table
    unfold single_mode_result
    by_cases hne : table.isEmpty
    · rw [if_pos hne]
    · rw [if_neg hne, if_pos (by simp)]

/-- C3 witness: concrete tables with totals 120 and 80 against threshold 100,
and 120 against the sentinel -1. -/
theorem threshold_enforcement_witness :
    single_mode_result sampleT120 100 = Except.error (threshold_message 100) ∧
    single_mode_result sampleT80 100 = Except.ok () ∧
    single_mode_result sampleT120 (-1) = Except.ok () :=
  ⟨threshold_enforcement.1 sampleT120 (by decide) (by decide),
    threshold_enforcement.2.1 sampleT80 (by decide) (by decide),
    threshold_enforcement.2.2.1 sampleT120⟩

/-- C10: with the threshold set to a negative value other than the sentinel,
here -2, every single-snapshot run whose stats table is non-empty fails the
threshold check, however small the total: the check exempts only the exact
value -1 and otherwise requires `total <= max_count`. -/
theorem negative_threshold_fails (files : List (String × List TokenInfo))
    (h : gen_stats files ≠ []) :
    single_mode_result (gen_stats files) (-2)
      = Except.error (threshold_message (-2)) := by
  have hpos : 0 < total_lines (gen_stats files) := by
    apply List.sum_pos
    · intro x hx
      rcases List.mem_map.mp hx with ⟨r, hr, rfl⟩
      exact line_count_pos_of_mem_gen_stats hr
    · simpa using h
  unfold single_mode_result
  rw [if_neg (by simpa [List.isEmpty_iff] using h), if_neg]
  simp only [Bool.or_eq_true, not_or]
  constructor
  · decide
  · simpa using (by omega : ¬ total_lines (gen_stats files) ≤ -2)

/-- C10 witness: a one-file scan with a single token fails against
threshold -2. -/
theorem negative_threshold_fails_witness :
    single_mode_result (gen_stats sampleFiles) (-2)
      = Except.error (threshold_message (-2)) :=
  negative_threshold_fails sampleFiles (by decide)

/-- C7: in single-snapshot mode the printed grand total is the sum of
`line_count` over all emitted rows, which equals the sum of the per-directory
subtotals, each row belonging to exactly one group keyed by the first two
slash-separated path segments. -/
theorem single_mode_totals (table : List FileStat) :
    total_lines table = (dirSubtotals table).sum ∧
    ∀ r ∈ table, (groupKeys table).count (group_key r.path) = 1 := by
  constructor
  · unfold dirSubtotals dirSubtotal groupKeys total_lines
    exact (sum_partition ((table.map (fun r => group_key r.path)).dedup)
      (List.nodup_dedup _) table
      (fun r hr => List.mem_dedup.mpr
        (List.mem_map_of_mem (fun r => group_key r.path) hr))).symm
  · intro r hr
    exact List.count_eq_one_of_mem (List.nodup_dedup _)
      (List.mem_dedup.mpr (List.mem_map_of_mem _ hr))

/-- C7 witness: on a concrete table the total equals the sum of group
subtotals and a row's key occurs once among the group keys. -/
theorem single_mode_totals_witness :
    total_lines sampleT80 = (dirSubtotals sampleT80).sum ∧
    (groupKeys sampleT80).count (group_key "a/b/c.py") = 1 :=
  ⟨(single_mode_totals sampleT80).1,
    (single_mode_totals sampleT80).2 ⟨"a/b/c.py", 50, 1⟩ (by decide)⟩

/-- C8: every row emitted by `gen_stats` has a positive line count, and a
file whose retained tokens cover no lines contributes no row — its path is
absent when paths are unique. -/
theorem gen_stats_line_count_pos :
    (∀ (files : List (String × List TokenInfo)) (r : FileStat),
      r ∈ gen_stats files → 0 < r.line_count) ∧
    (∀ (files : List (String × List TokenInfo)) (p : String)
      (toks : List TokenInfo), (files.map Prod.fst).Nodup →
      (p, toks) ∈ files → coveredLines (retained toks) = ∅ →
      p ∉ (gen_stats files).map FileStat.path) := by
  constructor
  · intro files r hr
    exact line_count_pos_of_mem_gen_stats hr
  · intro files p toks hnd hmem hcov hp
    rcases List.mem_map.mp hp with ⟨r, hr, hrp⟩
    rcases List.mem_filterMap.mp hr with ⟨pf, hpf_mem, hpf⟩
    have hpath : r.path = pf.1 := by
      simp only [fileStat?] at hpf
      split at hpf
      · cases hpf
        rfl
      · cases hpf
    have hpf_eq : pf = (p, toks) :=
      List.inj_on_of_nodup_map hnd hpf_mem hmem (by rw [← hpath, hrp])
    rw [hpf_eq] at hpf
    simp only [fileStat?] at hpf
    rw [hcov] at hpf
    simp at hpf

/-- C8 witness: the scanned sample has a positive line count for its first
row, and the token-free file `b.py` is absent from the output. -/
theorem gen_stats_line_count_pos_witness :
    0 < ((gen_stats sampleFiles).getD 0 (defaultStat "")).line_count ∧
    "b.py" ∉ (gen_stats sampleFiles2).map FileStat.path := by
  constructor
  · apply gen_stats_line_count_pos.1 sampleFiles
    have hlen : 0 < (gen_stats sampleFiles).length := by decide
    rw [List.getD_eq_getElem (gen_stats sampleFiles) (defaultStat "") hlen]
    exact List.getElem_mem hlen
  · exact gen_stats_line_count_pos.2 sampleFiles2 "b.py" [] (by decide)
      (by decide) (by decide)

end SizeDiff
